import Mathlib

/-!
Shallow embedding of the document-normalization pipeline of
`src/src/openai_classifier.py` (the authoritative module; the companion
`openai_image_classifier.py` duplicates the same stitch loop).

Modelling conventions:
* File contents are `List Nat` (bytes); filesystem paths are elided and the
  file written at a path is identified with its byte content.
* The third-party rasterizer `pdf2image.convert_from_bytes` is external to the
  repository, so it enters as an explicit parameter
  `cvb : List Nat → Option (List PageImage)`; `none` models the library
  raising an exception on unparseable bytes.
* Python exceptions are modelled with `Except PipelineError`; the `ValueError`
  raised by `process_document_file` for unsupported types and the exceptions
  escaping `convert_pdf_to_jpeg` become the two constructors of
  `PipelineError`.
* `PIL.Image.save` (JPEG serialization of the stitched image) is external and
  enters as a parameter `jpegBytes : StitchedImage → List Nat`.
-/

/-- One rasterized PDF page, as produced by the external rasterizer:
a raster image with a width and a height in pixels. -/
structure PageImage where
  width : Nat
  height : Nat
deriving DecidableEq

/-- The stitched composite built by `convert_pdf_to_jpeg`: the canvas size
given to `Image.new` together with the record of every `paste` call
`(x, y, page)` performed on the canvas, in execution order. -/
structure StitchedImage where
  width : Nat
  height : Nat
  pastes : List (Nat × Nat × PageImage)
deriving DecidableEq

/-- Errors escaping the pipeline: the `ValueError` raised for unsupported
media types (carrying its message), and any exception escaping PDF
rasterization (library failure on unparseable bytes, or the `ValueError`
from unpacking `zip()` over an empty page list). -/
inductive PipelineError where
  | unsupportedMediaType (message : String)
  | rasterizationFailure
deriving DecidableEq

/-- The paste loop of `convert_pdf_to_jpeg`: starting from `y_offset`, paste
each page at `(0, y_offset)` and advance `y_offset` by the height of the
pasted page. -/
def stitchLoop : List PageImage → Nat → List (Nat × Nat × PageImage)
  | [], _ => []
  | img :: rest, y => (0, y, img) :: stitchLoop rest (y + img.height)

/-- `convert_pdf_to_jpeg` from `src/src/openai_classifier.py`: rasterize the
PDF bytes via the external library, then stitch the page images vertically.
On an empty page list the source line
`widths, heights = zip(*(img.size for img in images))` raises `ValueError`
(not enough values to unpack); a library exception also escapes. Both are
rasterization failures to the caller. -/
def convert_pdf_to_jpeg (cvb : List Nat → Option (List PageImage))
    (file_bytes : List Nat) : Except PipelineError StitchedImage :=
  match cvb file_bytes with
  | none => .error .rasterizationFailure
  | some images =>
    if images.isEmpty then .error .rasterizationFailure
    else
      let widths := images.map PageImage.width
      let heights := images.map PageImage.height
      let total_width := widths.foldl Nat.max 0
      let total_height := heights.sum
      .ok { width := total_width, height := total_height,
            pastes := stitchLoop images 0 }

/-- Index of the last occurrence of `c` in a character list (the semantics of
Python `str.rfind`, restricted to the occurrence test the source needs). -/
def rfind (c : Char) : List Char → Option Nat
  | [] => none
  | x :: xs =>
    match rfind c xs with
    | some j => some (j + 1)
    | none => if x = c then some 0 else none

/-- Index one past the last path separator (0 when there is none): the
position where `posixpath.splitext` starts scanning the basename. -/
def sepNextOf (s : List Char) : Nat :=
  match rfind '/' s with
  | none => 0
  | some i => i + 1

/-- The extension (including the leading dot) computed by
`posixpath.splitext`, which `mimetypes.guess_type` applies to the filename:
the suffix from the last dot, provided that dot lies after the last path
separator and some character strictly between the separator and the dot is
not itself a dot (so dotfiles like `".txt"` have no extension). -/
def splitextExt (s : List Char) : List Char :=
  match rfind '.' s with
  | none => []
  | some dotIdx =>
    let sepNext : Nat := sepNextOf s
    if sepNext ≤ dotIdx then
      if (List.range' sepNext (dotIdx - sepNext)).any
          (fun i => s.getD i ' ' ≠ '.') then
        s.drop dotIdx
      else []
    else []

/-- The fragment of the Python `mimetypes` extension table relevant to this
repository: the recognized raster and PDF extensions, plus representative
unrecognized-but-mapped extensions to model that `guess_type` is not limited
to the recognized set. Keys are lowercase, as in the stdlib table. -/
def typesMap : List (String × String) :=
  [(".jpg", "image/jpeg"), (".jpeg", "image/jpeg"), (".jpe", "image/jpeg"),
   (".png", "image/png"), (".webp", "image/webp"), (".gif", "image/gif"),
   (".pdf", "application/pdf"),
   (".txt", "text/plain"), (".html", "text/html"), (".csv", "text/csv"),
   (".xml", "text/xml"), (".zip", "application/zip"),
   (".doc", "application/msword")]

/-- `mimetypes.guess_type` on a plain filename: take the `splitext` extension,
lowercase it, and look it up in the types table; `none` when the filename has
no extension or the extension is unmapped. -/
def guess_type (file_name : String) : Option String :=
  let ext := String.mk ((splitextExt file_name.toList).map Char.toLower)
  (typesMap.find? (fun p => p.1 == ext)).map Prod.snd

/-- The list literal of supported raster MIME types tested by
`process_document_file`. -/
def rasterMimes : List String :=
  ["image/jpeg", "image/png", "image/webp", "image/gif"]

/-- The message of the `ValueError` raised by `process_document_file` for
unsupported types, verbatim from the source. -/
def unsupportedMsg : String :=
  "Unsupported file type. Supported types: PDF, JPEG, PNG, WEBP, GIF."

/-- Stages of the pipeline, for stating which stages a run invokes. -/
inductive Stage where
  | resolveStage
  | rasterizeStage
  | encodeStage
deriving DecidableEq

/-- `process_document_file` from the source, instrumented with the list of
pipeline stages the run invokes. The source reads the bytes and filename,
guesses the MIME type, writes supported raster bytes through unchanged,
converts PDFs via `convert_pdf_to_jpeg` (serialized by the external
`jpegBytes`), and raises `ValueError` otherwise (also when `guess_type`
returns `None`, which fails both branch tests). The returned pair is the
byte content of the file at the returned path together with the returned
MIME type. -/
def process_document_file_trace (cvb : List Nat → Option (List PageImage))
    (jpegBytes : StitchedImage → List Nat)
    (file_bytes : List Nat) (file_name : String) :
    Except PipelineError (List Nat × String) × List Stage :=
  match guess_type file_name with
  | some mime =>
    if mime ∈ rasterMimes then
      (.ok (file_bytes, mime), [.resolveStage])
    else if mime = "application/pdf" then
      match convert_pdf_to_jpeg cvb file_bytes with
      | .ok st => (.ok (jpegBytes st, "image/jpeg"), [.resolveStage, .rasterizeStage])
      | .error e => (.error e, [.resolveStage, .rasterizeStage])
    else
      (.error (.unsupportedMediaType unsupportedMsg), [.resolveStage])
  | none => (.error (.unsupportedMediaType unsupportedMsg), [.resolveStage])

/-- `process_document_file` proper: the result component of the traced run. -/
def process_document_file (cvb : List Nat → Option (List PageImage))
    (jpegBytes : StitchedImage → List Nat)
    (file_bytes : List Nat) (file_name : String) :
    Except PipelineError (List Nat × String) :=
  (process_document_file_trace cvb jpegBytes file_bytes file_name).1

/-- Character of the standard base64 alphabet for a sextet value. -/
def sextetChar (n : Nat) : Char :=
  if n < 26 then Char.ofNat (65 + n)
  else if n < 52 then Char.ofNat (97 + (n - 26))
  else if n < 62 then Char.ofNat (48 + (n - 52))
  else if n = 62 then '+'
  else '/'

/-- Inverse of the base64 alphabet; `none` for characters outside it
(in particular for the padding character). -/
def charToSextet (c : Char) : Option Nat :=
  if 65 ≤ c.toNat ∧ c.toNat ≤ 90 then some (c.toNat - 65)
  else if 97 ≤ c.toNat ∧ c.toNat ≤ 122 then some (26 + (c.toNat - 97))
  else if 48 ≤ c.toNat ∧ c.toNat ≤ 57 then some (52 + (c.toNat - 48))
  else if c = '+' then some 62
  else if c = '/' then some 63
  else none

/-- Standard base64 of a byte list (RFC 4648, with padding), the semantics of
Python `base64.b64encode`: three input bytes become four alphabet characters;
a final group of one or two bytes is padded with one or two `=` characters. -/
def b64EncodeRec : List Nat → List Char
  | b1 :: b2 :: b3 :: rest =>
    let n := b1 * 65536 + b2 * 256 + b3
    sextetChar (n / 262144) :: sextetChar (n / 4096 % 64) ::
      sextetChar (n / 64 % 64) :: sextetChar (n % 64) :: b64EncodeRec rest
  | [b1, b2] =>
    let n := b1 * 1024 + b2 * 4
    [sextetChar (n / 4096), sextetChar (n / 64 % 64), sextetChar (n % 64), '=']
  | [b1] =>
    let n := b1 * 16
    [sextetChar (n / 64), sextetChar (n % 64), '=', '=']
  | [] => []

/-- `encode_image` from the source: base64-encode the byte content of the
file at the given path (the content itself in this embedding). The decoded
UTF-8 string is represented by its character list. -/
def encode_image (image_bytes : List Nat) : List Char :=
  b64EncodeRec image_bytes

/-- Standard base64 decoding, the verification inverse for the round-trip
property: groups of four characters decode to three bytes, a final group with
one or two non-alphabet (padding) tail characters decodes to two bytes or one
byte, and anything malformed yields `none`. -/
def b64DecodeRec : List Char → Option (List Nat)
  | [] => some []
  | c1 :: c2 :: c3 :: c4 :: rest =>
    match charToSextet c1, charToSextet c2, charToSextet c3, charToSextet c4 with
    | some s1, some s2, some s3, some s4 =>
      (b64DecodeRec rest).map
        (fun bs => (s1 * 4 + s2 / 16) :: (s2 % 16 * 16 + s3 / 4) :: (s3 % 4 * 64 + s4) :: bs)
    | some s1, some s2, some s3, none =>
      if rest = [] then some [s1 * 4 + s2 / 16, s2 % 16 * 16 + s3 / 4] else none
    | some s1, some s2, none, none =>
      if rest = [] then some [s1 * 4 + s2 / 16] else none
    | _, _, _, _ => none
  | _ => none

/-- `query_gpt4` from the source, up to the construction of the encoded
payload handed to the external API client: process the document, then
base64-encode the resulting image file. An exception from
`process_document_file` propagates before `encode_image` runs. -/
def query_gpt4_trace (cvb : List Nat → Option (List PageImage))
    (jpegBytes : StitchedImage → List Nat)
    (file_bytes : List Nat) (file_name : String) :
    Except PipelineError (List Char × String) × List Stage :=
  match process_document_file_trace cvb jpegBytes file_bytes file_name with
  | (.error e, tr) => (.error e, tr)
  | (.ok (bytes, mime), tr) => (.ok (encode_image bytes, mime), tr ++ [.encodeStage])

/-! ## Helper lemmas about the stitch loop and list maxima -/

/-- The default paste record used for out-of-range indexing. -/
def pasteDefault : Nat × Nat × PageImage := (0, 0, ⟨0, 0⟩)

/-- The default page used for out-of-range indexing. -/
def pageDefault : PageImage := ⟨0, 0⟩

theorem stitchLoop_length (l : List PageImage) (y : Nat) :
    (stitchLoop l y).length = l.length := by
  induction l generalizing y with
  | nil => rfl
  | cons a as ih => simp [stitchLoop, ih]

theorem stitchLoop_getD (l : List PageImage) (y i : Nat) (h : i < l.length) :
    (stitchLoop l y).getD i pasteDefault =
      (0, y + ((l.take i).map PageImage.height).sum, l.getD i pageDefault) := by
  induction l generalizing y i with
  | nil => simp at h
  | cons a as ih =>
    cases i with
    | zero => simp [stitchLoop]
    | succ j =>
      have hj : j < as.length := by
        simp only [List.length_cons] at h
        omega
      simp only [stitchLoop, List.getD_cons_succ, List.take_succ_cons, List.map_cons,
        List.sum_cons]
      rw [ih (y + a.height) j hj]
      simp [Nat.add_assoc]

theorem foldl_max_mem (as : List Nat) (a : Nat) : as.foldl Nat.max a ∈ a :: as := by
  induction as generalizing a with
  | nil => simp [List.foldl]
  | cons b bs ih =>
    have hmem := ih (Nat.max a b)
    rcases List.mem_cons.mp hmem with h | h
    · rcases Nat.le_total a b with hab | hab
      · have hm : Nat.max a b = b := Nat.max_eq_right hab
        rw [hm] at h
        simp [List.foldl, hm, h]
      · have hm : Nat.max a b = a := Nat.max_eq_left hab
        rw [hm] at h
        simp [List.foldl, hm, h]
    · simp only [List.foldl]
      exact List.mem_cons_of_mem _ (List.mem_cons_of_mem _ h)

theorem le_foldl_max_seed (bs : List Nat) (a b : Nat) (hab : a ≤ b) :
    a ≤ bs.foldl Nat.max b := by
  induction bs generalizing b with
  | nil => simpa [List.foldl] using hab
  | cons c cs ih =>
    simp only [List.foldl]
    exact ih (Nat.max b c) (le_trans hab (Nat.le_max_left b c))

theorem le_foldl_max (as : List Nat) (a x : Nat) (hx : x ∈ a :: as) :
    x ≤ as.foldl Nat.max a := by
  induction as generalizing a with
  | nil =>
    simp only [List.mem_singleton] at hx
    simpa [List.foldl] using hx.le
  | cons b bs ih =>
    simp only [List.foldl]
    rcases List.mem_cons.mp hx with rfl | hx
    · exact le_foldl_max_seed bs x (Nat.max x b) (Nat.le_max_left x b)
    · rcases List.mem_cons.mp hx with rfl | hx
      · exact le_foldl_max_seed bs x (Nat.max a x) (Nat.le_max_right a x)
      · exact ih (Nat.max a b) (List.mem_cons_of_mem _ hx)

theorem foldl_max_zero_cons (x : Nat) (xs : List Nat) :
    (x :: xs).foldl Nat.max 0 = xs.foldl Nat.max x := by
  simp only [List.foldl]
  have h0 : Nat.max 0 x = x := Nat.max_eq_right (Nat.zero_le x)
  rw [h0]

theorem sum_take_mono (l : List Nat) (i j : Nat) (hij : i ≤ j) :
    (l.take i).sum ≤ (l.take j).sum := by
  have hsplit : l.take j = (l.take j).take i ++ (l.take j).drop i :=
    (List.take_append_drop i (l.take j)).symm
  have htt : (l.take j).take i = l.take i := by
    rw [List.take_take]
    congr 1
    omega
  calc (l.take i).sum ≤ (l.take i).sum + ((l.take j).drop i).sum := Nat.le_add_right _ _
    _ = ((l.take j).take i).sum + ((l.take j).drop i).sum := by rw [htt]
    _ = (l.take j).sum := by rw [← List.sum_append, ← hsplit]

/-! ## C1, C2, C3: the rasterizer and stitcher -/

/-- C1: for every PDF input that rasterizes to a non-empty list of page
images, the stitched output image has width equal to the maximum of the page
widths (an attained upper bound of the width list) and height equal to the
sum of the page heights. -/
theorem stitched_dimensions
    (cvb : List Nat → Option (List PageImage)) (file_bytes : List Nat)
    (images : List PageImage) (hc : cvb file_bytes = some images)
    (hne : images ≠ []) :
    ∃ st, convert_pdf_to_jpeg cvb file_bytes = .ok st ∧
      st.height = (images.map PageImage.height).sum ∧
      st.width ∈ images.map PageImage.width ∧
      ∀ w ∈ images.map PageImage.width, w ≤ st.width := by
  cases images with
  | nil => exact absurd rfl hne
  | cons a as =>
    refine ⟨⟨((a :: as).map PageImage.width).foldl Nat.max 0,
      ((a :: as).map PageImage.height).sum, stitchLoop (a :: as) 0⟩, ?_, rfl, ?_, ?_⟩
    · simp [convert_pdf_to_jpeg, hc]
    · simp only [List.map_cons, foldl_max_zero_cons]
      exact foldl_max_mem (as.map PageImage.width) a.width
    · intro w hw
      simp only [List.map_cons, foldl_max_zero_cons]
      exact le_foldl_max (as.map PageImage.width) a.width w (by simpa using hw)

/-- C1 witness: a concrete two-page rasterization with pages 100 by 200 and
50 by 300 yields a stitched image of width 100 and height 500. -/
theorem stitched_dimensions_witness :
    ∃ st, convert_pdf_to_jpeg (fun _ => some [⟨100, 200⟩, ⟨50, 300⟩]) [0] = .ok st ∧
      st.height = ([⟨100, 200⟩, ⟨50, 300⟩].map PageImage.height).sum ∧
      st.width ∈ [⟨100, 200⟩, ⟨50, 300⟩].map PageImage.width ∧
      ∀ w ∈ [(⟨100, 200⟩ : PageImage), ⟨50, 300⟩].map PageImage.width, w ≤ st.width :=
  stitched_dimensions (fun _ => some [⟨100, 200⟩, ⟨50, 300⟩]) [0]
    [⟨100, 200⟩, ⟨50, 300⟩] rfl (by simp)

/-- C2: in the stitched output every page is pasted at x equal to 0 and at a
running y-offset equal to the sum of the heights of all earlier pages, and
for every pair of page indices i less than j, page i's vertical interval ends
at or before page j's offset begins. -/
theorem paste_order
    (cvb : List Nat → Option (List PageImage)) (file_bytes : List Nat)
    (images : List PageImage) (hc : cvb file_bytes = some images)
    (st : StitchedImage) (hok : convert_pdf_to_jpeg cvb file_bytes = .ok st) :
    st.pastes.length = images.length ∧
    (∀ i, i < images.length →
      st.pastes.getD i pasteDefault =
        (0, ((images.take i).map PageImage.height).sum, images.getD i pageDefault)) ∧
    (∀ i j, i < j → j < images.length →
      (st.pastes.getD i pasteDefault).2.1 + (st.pastes.getD i pasteDefault).2.2.height ≤
        (st.pastes.getD j pasteDefault).2.1) := by
  have hpastes : st.pastes = stitchLoop images 0 := by
    rw [convert_pdf_to_jpeg, hc] at hok
    cases images with
    | nil => simp at hok
    | cons a as =>
      simp only [List.isEmpty_cons, if_false, Bool.false_eq_true] at hok
      cases hok
      rfl
  refine ⟨by rw [hpastes, stitchLoop_length], ?_, ?_⟩
  · intro i hi
    rw [hpastes, stitchLoop_getD images 0 i hi, Nat.zero_add]
  · intro i j hij hj
    have hi : i < images.length := lt_trans hij hj
    rw [hpastes, stitchLoop_getD images 0 i hi, stitchLoop_getD images 0 j hj]
    simp only [Nat.zero_add]
    have hgetd : (images.getD i pageDefault).height =
        (images.map PageImage.height).get ⟨i, by simpa using hi⟩ := by
      rw [List.getD_eq_getElem images pageDefault hi]
      simp
    have hsucc : ((images.map PageImage.height).take (i + 1)).sum =
        ((images.map PageImage.height).take i).sum +
        (images.map PageImage.height).get ⟨i, by simpa using hi⟩ :=
      List.sum_take_succ _ i _
    rw [hgetd, List.map_take, List.map_take, ← hsucc]
    exact sum_take_mono _ (i + 1) j hij

/-- C2 witness: the concrete two-page stitch pastes page 0 at offset 0 and
page 1 at offset 200, with the intervals in order. -/
theorem paste_order_witness :
    (⟨100, 500, [(0, 0, ⟨100, 200⟩), (0, 200, ⟨50, 300⟩)]⟩ : StitchedImage).pastes.length =
        [(⟨100, 200⟩ : PageImage), ⟨50, 300⟩].length ∧
    (∀ i, i < [(⟨100, 200⟩ : PageImage), ⟨50, 300⟩].length →
      (⟨100, 500, [(0, 0, ⟨100, 200⟩), (0, 200, ⟨50, 300⟩)]⟩ : StitchedImage).pastes.getD i pasteDefault =
        (0, (([(⟨100, 200⟩ : PageImage), ⟨50, 300⟩].take i).map PageImage.height).sum,
          [(⟨100, 200⟩ : PageImage), ⟨50, 300⟩].getD i pageDefault)) ∧
    (∀ i j, i < j → j < [(⟨100, 200⟩ : PageImage), ⟨50, 300⟩].length →
      ((⟨100, 500, [(0, 0, ⟨100, 200⟩), (0, 200, ⟨50, 300⟩)]⟩ : StitchedImage).pastes.getD i pasteDefault).2.1 +
        ((⟨100, 500, [(0, 0, ⟨100, 200⟩), (0, 200, ⟨50, 300⟩)]⟩ : StitchedImage).pastes.getD i pasteDefault).2.2.height ≤
        ((⟨100, 500, [(0, 0, ⟨100, 200⟩), (0, 200, ⟨50, 300⟩)]⟩ : StitchedImage).pastes.getD j pasteDefault).2.1) :=
  paste_order (fun _ => some [⟨100, 200⟩, ⟨50, 300⟩]) [0] [⟨100, 200⟩, ⟨50, 300⟩] rfl
    ⟨100, 500, [(0, 0, ⟨100, 200⟩), (0, 200, ⟨50, 300⟩)]⟩ (by rfl)

/-- C3: for every PDF input on which the rasterizer raises, and for every one
on which it produces an empty page list, `convert_pdf_to_jpeg` raises a
rasterization failure and never returns an image. -/
theorem rasterization_failure_on_bad_pdf
    (cvb : List Nat → Option (List PageImage)) (file_bytes : List Nat)
    (h : cvb file_bytes = none ∨ cvb file_bytes = some []) :
    convert_pdf_to_jpeg cvb file_bytes = .error .rasterizationFailure ∧
      ∀ st, convert_pdf_to_jpeg cvb file_bytes ≠ .ok st := by
  have herr : convert_pdf_to_jpeg cvb file_bytes = .error .rasterizationFailure := by
    rcases h with h | h <;> simp [convert_pdf_to_jpeg, h]
  exact ⟨herr, fun st hst => by rw [herr] at hst; exact Except.noConfusion hst⟩

/-- C3 witness: a rasterizer that raises on every input makes
`convert_pdf_to_jpeg` fail on the empty byte string. -/
theorem rasterization_failure_on_bad_pdf_witness :
    convert_pdf_to_jpeg (fun _ => none) [] = .error .rasterizationFailure ∧
      ∀ st, convert_pdf_to_jpeg (fun _ => none) [] ≠ .ok st :=
  rasterization_failure_on_bad_pdf (fun _ => none) [] (Or.inl rfl)


/-! ## Equation lemmas for the rasterizer and the traced pipeline -/

theorem convert_eq_of_none (cvb : List Nat → Option (List PageImage))
    (fb : List Nat) (hc : cvb fb = none) :
    convert_pdf_to_jpeg cvb fb = .error .rasterizationFailure := by
  simp [convert_pdf_to_jpeg, hc]

theorem convert_eq_of_empty (cvb : List Nat → Option (List PageImage))
    (fb : List Nat) (hc : cvb fb = some []) :
    convert_pdf_to_jpeg cvb fb = .error .rasterizationFailure := by
  simp [convert_pdf_to_jpeg, hc]

theorem convert_eq_of_cons (cvb : List Nat → Option (List PageImage))
    (fb : List Nat) (a : PageImage) (as : List PageImage)
    (hc : cvb fb = some (a :: as)) :
    convert_pdf_to_jpeg cvb fb =
      .ok ⟨((a :: as).map PageImage.width).foldl Nat.max 0,
        ((a :: as).map PageImage.height).sum, stitchLoop (a :: as) 0⟩ := by
  simp [convert_pdf_to_jpeg, hc]

theorem convert_error_shape (cvb : List Nat → Option (List PageImage))
    (fb : List Nat) (e : PipelineError)
    (h : convert_pdf_to_jpeg cvb fb = .error e) : e = .rasterizationFailure := by
  cases hc : cvb fb with
  | none =>
    rw [convert_eq_of_none cvb fb hc] at h
    cases h
    rfl
  | some images =>
    cases images with
    | nil =>
      rw [convert_eq_of_empty cvb fb hc] at h
      cases h
      rfl
    | cons a as =>
      rw [convert_eq_of_cons cvb fb a as hc] at h
      cases h

theorem convert_ok_of_nonempty (cvb : List Nat → Option (List PageImage))
    (fb : List Nat) (images : List PageImage)
    (hc : cvb fb = some images) (hne : images ≠ []) :
    ∃ st, convert_pdf_to_jpeg cvb fb = .ok st := by
  cases images with
  | nil => exact absurd rfl hne
  | cons a as => exact ⟨_, convert_eq_of_cons cvb fb a as hc⟩

theorem process_trace_eq_of_gnone (cvb : List Nat → Option (List PageImage))
    (jb : StitchedImage → List Nat) (bytes : List Nat) (name : String)
    (hg : guess_type name = none) :
    process_document_file_trace cvb jb bytes name =
      (.error (.unsupportedMediaType unsupportedMsg), [.resolveStage]) := by
  simp [process_document_file_trace, hg]

theorem process_trace_eq_of_raster (cvb : List Nat → Option (List PageImage))
    (jb : StitchedImage → List Nat) (bytes : List Nat) (name mime : String)
    (hg : guess_type name = some mime) (h1 : mime ∈ rasterMimes) :
    process_document_file_trace cvb jb bytes name =
      (.ok (bytes, mime), [.resolveStage]) := by
  simp [process_document_file_trace, hg, h1]

theorem process_trace_eq_of_pdf_ok (cvb : List Nat → Option (List PageImage))
    (jb : StitchedImage → List Nat) (bytes : List Nat) (name mime : String)
    (hg : guess_type name = some mime) (h1 : mime ∉ rasterMimes)
    (h2 : mime = "application/pdf") (st : StitchedImage)
    (hcv : convert_pdf_to_jpeg cvb bytes = .ok st) :
    process_document_file_trace cvb jb bytes name =
      (.ok (jb st, "image/jpeg"), [.resolveStage, .rasterizeStage]) := by
  have h3 : ("application/pdf" : String) ∉ rasterMimes := by decide
  simp [process_document_file_trace, hg, h1, h2, h3, hcv]

theorem process_trace_eq_of_pdf_err (cvb : List Nat → Option (List PageImage))
    (jb : StitchedImage → List Nat) (bytes : List Nat) (name mime : String)
    (hg : guess_type name = some mime) (h1 : mime ∉ rasterMimes)
    (h2 : mime = "application/pdf") (e : PipelineError)
    (hcv : convert_pdf_to_jpeg cvb bytes = .error e) :
    process_document_file_trace cvb jb bytes name =
      (.error e, [.resolveStage, .rasterizeStage]) := by
  have h3 : ("application/pdf" : String) ∉ rasterMimes := by decide
  simp [process_document_file_trace, hg, h1, h2, h3, hcv]

theorem process_trace_eq_of_unmatched (cvb : List Nat → Option (List PageImage))
    (jb : StitchedImage → List Nat) (bytes : List Nat) (name mime : String)
    (hg : guess_type name = some mime) (h1 : mime ∉ rasterMimes)
    (h2 : mime ≠ "application/pdf") :
    process_document_file_trace cvb jb bytes name =
      (.error (.unsupportedMediaType unsupportedMsg), [.resolveStage]) := by
  simp [process_document_file_trace, hg, h1, h2]

theorem process_unsupported_trace (cvb : List Nat → Option (List PageImage))
    (jb : StitchedImage → List Nat) (bytes : List Nat) (name : String)
    (h : guess_type name = none ∨
      ∃ mime, guess_type name = some mime ∧ mime ∉ rasterMimes ∧ mime ≠ "application/pdf") :
    process_document_file_trace cvb jb bytes name =
      (.error (.unsupportedMediaType unsupportedMsg), [.resolveStage]) := by
  rcases h with h | ⟨mime, hg, h1, h2⟩
  · exact process_trace_eq_of_gnone cvb jb bytes name h
  · exact process_trace_eq_of_unmatched cvb jb bytes name mime hg h1 h2

theorem process_trace_no_encode (cvb : List Nat → Option (List PageImage))
    (jb : StitchedImage → List Nat) (bytes : List Nat) (name : String) :
    Stage.encodeStage ∉ (process_document_file_trace cvb jb bytes name).2 := by
  cases hg : guess_type name with
  | none => rw [process_trace_eq_of_gnone cvb jb bytes name hg]; simp
  | some mime =>
    by_cases h1 : mime ∈ rasterMimes
    · rw [process_trace_eq_of_raster cvb jb bytes name mime hg h1]; simp
    · by_cases h2 : mime = "application/pdf"
      · cases hcv : convert_pdf_to_jpeg cvb bytes with
        | ok st =>
          rw [process_trace_eq_of_pdf_ok cvb jb bytes name mime hg h1 h2 st hcv]
          simp
        | error e =>
          rw [process_trace_eq_of_pdf_err cvb jb bytes name mime hg h1 h2 e hcv]
          simp
      · rw [process_trace_eq_of_unmatched cvb jb bytes name mime hg h1 h2]; simp

theorem process_error_trace (cvb : List Nat → Option (List PageImage))
    (jb : StitchedImage → List Nat) (bytes : List Nat) (name m : String)
    (h : (process_document_file_trace cvb jb bytes name).1 =
      .error (.unsupportedMediaType m)) :
    process_document_file_trace cvb jb bytes name =
      (.error (.unsupportedMediaType m), [.resolveStage]) := by
  cases hg : guess_type name with
  | none =>
    rw [process_trace_eq_of_gnone cvb jb bytes name hg] at h ⊢
    cases h
    rfl
  | some mime =>
    by_cases h1 : mime ∈ rasterMimes
    · rw [process_trace_eq_of_raster cvb jb bytes name mime hg h1] at h
      cases h
    · by_cases h2 : mime = "application/pdf"
      · cases hcv : convert_pdf_to_jpeg cvb bytes with
        | ok st =>
          rw [process_trace_eq_of_pdf_ok cvb jb bytes name mime hg h1 h2 st hcv] at h
          cases h
        | error e =>
          have he : e = PipelineError.rasterizationFailure :=
            convert_error_shape cvb bytes e hcv
          rw [process_trace_eq_of_pdf_err cvb jb bytes name mime hg h1 h2 e hcv, he] at h
          cases h
      · rw [process_trace_eq_of_unmatched cvb jb bytes name mime hg h1 h2] at h ⊢
        cases h
        rfl

/-! ## C4: rejection of unsupported types -/

/-- C4 counterexample: for the input filename "file.txt" the resolver yields
the MIME type "text/plain" and `process_document_file` raises the fixed
unsupported-type `ValueError`, but the message of that error contains
neither the guessed MIME type nor the extension of the rejected input, so
the claim that the message names the rejected type is false. -/
theorem unsupported_message_counterexample :
    guess_type "file.txt" = some "text/plain" ∧
    process_document_file (fun _ => none) (fun _ => []) [1, 2] "file.txt" =
      .error (.unsupportedMediaType unsupportedMsg) ∧
    ¬ ("text/plain".toList <:+: unsupportedMsg.toList) ∧
    ¬ ("txt".toList <:+: unsupportedMsg.toList) :=
  ⟨rfl, rfl, by decide, by decide⟩

/-- C4 amended: for every input whose filename resolves to neither a
recognized raster type nor PDF (including filenames with no guessable type),
the pipeline raises the unsupported-type error whose fixed message lists the
supported types, and invokes no stage after resolution. -/
theorem unsupported_type_rejection (cvb : List Nat → Option (List PageImage))
    (jb : StitchedImage → List Nat) (bytes : List Nat) (name : String)
    (h : guess_type name = none ∨
      ∃ mime, guess_type name = some mime ∧ mime ∉ rasterMimes ∧ mime ≠ "application/pdf") :
    query_gpt4_trace cvb jb bytes name =
      (.error (.unsupportedMediaType unsupportedMsg), [.resolveStage]) := by
  unfold query_gpt4_trace
  rw [process_unsupported_trace cvb jb bytes name h]

/-- C4 witness: the concrete input "file.txt" is rejected at resolution with
the fixed message and a trace containing only the resolve stage. -/
theorem unsupported_type_rejection_witness :
    query_gpt4_trace (fun _ => none) (fun _ => []) [1, 2] "file.txt" =
      (.error (.unsupportedMediaType unsupportedMsg), [.resolveStage]) :=
  unsupported_type_rejection (fun _ => none) (fun _ => []) [1, 2] "file.txt"
    (Or.inr ⟨"text/plain", rfl, by decide, by decide⟩)

/-! ## C6: no partial success -/

/-- C6: the pipeline never partially succeeds: an unsupported-type error
from resolution propagates through `query_gpt4` with only the resolve stage
invoked (no rasterization, no encoding), and whenever any stage fails the
pipeline result is an error, the encode stage is never reached and no
encoded payload is produced. -/
theorem no_partial_success (cvb : List Nat → Option (List PageImage))
    (jb : StitchedImage → List Nat) (bytes : List Nat) (name : String) :
    (∀ m, process_document_file cvb jb bytes name = .error (.unsupportedMediaType m) →
      query_gpt4_trace cvb jb bytes name =
        (.error (.unsupportedMediaType m), [.resolveStage])) ∧
    (∀ e, (query_gpt4_trace cvb jb bytes name).1 = .error e →
      Stage.encodeStage ∉ (query_gpt4_trace cvb jb bytes name).2 ∧
      ∀ payload, (query_gpt4_trace cvb jb bytes name).1 ≠ .ok payload) := by
  constructor
  · intro m hm
    have htr : process_document_file_trace cvb jb bytes name =
        (.error (.unsupportedMediaType m), [.resolveStage]) :=
      process_error_trace cvb jb bytes name m hm
    unfold query_gpt4_trace
    rw [htr]
  · intro e he
    rcases hp : process_document_file_trace cvb jb bytes name with ⟨r, tr⟩
    cases r with
    | ok payload =>
      exfalso
      unfold query_gpt4_trace at he
      rw [hp] at he
      cases he
    | error err =>
      have hq : query_gpt4_trace cvb jb bytes name = (.error err, tr) := by
        unfold query_gpt4_trace
        rw [hp]
      rw [hq]
      refine ⟨?_, fun payload hpay => Except.noConfusion hpay⟩
      have := process_trace_no_encode cvb jb bytes name
      rw [hp] at this
      exact this

/-- C6 witness: for the concrete unsupported input "file.txt" the pipeline
propagates the resolver error with only the resolve stage invoked, and the
failing run reaches no encode stage and produces no payload. -/
theorem no_partial_success_witness :
    query_gpt4_trace (fun _ => none) (fun _ => []) [1, 2] "file.txt" =
      (.error (.unsupportedMediaType unsupportedMsg), [.resolveStage]) ∧
    (Stage.encodeStage ∉ (query_gpt4_trace (fun _ => none) (fun _ => []) [1, 2] "file.txt").2 ∧
      ∀ payload, (query_gpt4_trace (fun _ => none) (fun _ => []) [1, 2] "file.txt").1 ≠
        .ok payload) :=
  ⟨(no_partial_success (fun _ => none) (fun _ => []) [1, 2] "file.txt").1
      unsupportedMsg rfl,
    (no_partial_success (fun _ => none) (fun _ => []) [1, 2] "file.txt").2
      (.unsupportedMediaType unsupportedMsg) rfl⟩

/-! ## C7: the end-to-end scenario for "statement.PDF" and "drivers_license.jpg" -/

/-- C7: the uppercase-extension input "statement.PDF" resolves via the PDF
rasterization path and the input "drivers_license.jpg" via the direct image
path (their stage traces differ exactly in the rasterize stage), and both
ultimately return an encoded payload whose media type is "image/jpeg". -/
theorem end_to_end_jpeg_media_type (cvb : List Nat → Option (List PageImage))
    (jb : StitchedImage → List Nat) (pdfBytes imgBytes : List Nat)
    (images : List PageImage) (hc : cvb pdfBytes = some images) (hne : images ≠ []) :
    (∃ st, query_gpt4_trace cvb jb pdfBytes "statement.PDF" =
      (.ok (encode_image (jb st), "image/jpeg"),
        [.resolveStage, .rasterizeStage, .encodeStage])) ∧
    query_gpt4_trace cvb jb imgBytes "drivers_license.jpg" =
      (.ok (encode_image imgBytes, "image/jpeg"), [.resolveStage, .encodeStage]) := by
  constructor
  · obtain ⟨st, hst⟩ := convert_ok_of_nonempty cvb pdfBytes images hc hne
    refine ⟨st, ?_⟩
    unfold query_gpt4_trace
    rw [process_trace_eq_of_pdf_ok cvb jb pdfBytes "statement.PDF" "application/pdf"
      rfl (by decide) rfl st hst]
    rfl
  · unfold query_gpt4_trace
    rw [process_trace_eq_of_raster cvb jb imgBytes "drivers_license.jpg" "image/jpeg"
      rfl (by decide)]
    rfl

/-- C7 witness: with a rasterizer producing one 1000 by 1400 page, both
concrete inputs yield payloads labelled "image/jpeg", via the rasterization
path and the direct path respectively. -/
theorem end_to_end_jpeg_media_type_witness :
    (∃ st : StitchedImage, query_gpt4_trace (fun _ => some [⟨1000, 1400⟩]) (fun _ => [7]) [0]
        "statement.PDF" = (.ok (encode_image [7], "image/jpeg"),
          [.resolveStage, .rasterizeStage, .encodeStage])) ∧
    query_gpt4_trace (fun _ => some [⟨1000, 1400⟩]) (fun _ => [7]) [5]
        "drivers_license.jpg" = (.ok (encode_image [5], "image/jpeg"),
          [.resolveStage, .encodeStage]) :=
  end_to_end_jpeg_media_type (fun _ => some [⟨1000, 1400⟩]) (fun _ => [7]) [0] [5]
    [⟨1000, 1400⟩] rfl (by simp)

/-! ## C10: totality of type resolution -/

/-- C10: type resolution is total over filenames: every filename either
resolves to one of the five recognized MIME types (the four raster types or
PDF), or the pipeline takes the unsupported-type error branch for every
choice of rasterizer, serializer and byte content; in particular this covers
filenames with no guessable type, such as an empty name or one without an
extension. -/
theorem resolution_total (name : String) :
    (∃ mime, guess_type name = some mime ∧
      (mime ∈ rasterMimes ∨ mime = "application/pdf")) ∨
    (∀ cvb jb bytes, process_document_file cvb jb bytes name =
      .error (.unsupportedMediaType unsupportedMsg)) := by
  cases hg : guess_type name with
  | none =>
    right
    intro cvb jb bytes
    unfold process_document_file
    rw [process_trace_eq_of_gnone cvb jb bytes name hg]
  | some mime =>
    by_cases h1 : mime ∈ rasterMimes
    · exact Or.inl ⟨mime, rfl, Or.inl h1⟩
    · by_cases h2 : mime = "application/pdf"
      · exact Or.inl ⟨mime, rfl, Or.inr h2⟩
      · right
        intro cvb jb bytes
        unfold process_document_file
        rw [process_trace_eq_of_unmatched cvb jb bytes name mime hg h1 h2]

/-! ## C8: the encoder is pure and deterministic -/

/-- C8: the encoder is a deterministic function of the byte content: any two
calls of `encode_image` on equal byte sequences yield the identical base64
character string. In this embedding purity is definitional, so determinism
reduces to congruence of the encoding function. -/
theorem encode_image_deterministic (b1 b2 : List Nat) (h : b1 = b2) :
    encode_image b1 = encode_image b2 := by
  rw [h]

/-- C8 witness: two calls on the concrete byte sequence of "Man" agree. -/
theorem encode_image_deterministic_witness :
    encode_image [77, 97, 110] = encode_image [77, 97, 110] :=
  encode_image_deterministic [77, 97, 110] [77, 97, 110] rfl

/-! ## C9: base64 round-trip for directly-usable raster inputs -/

theorem charToSextet_sextetChar : ∀ s < 64, charToSextet (sextetChar s) = some s := by
  decide

theorem charToSextet_pad : charToSextet '=' = none := by decide

theorem b64_roundtrip : ∀ (l : List Nat), (∀ b ∈ l, b < 256) →
    b64DecodeRec (b64EncodeRec l) = some l
  | [], _ => rfl
  | [b1], h => by
    have hb1 : b1 < 256 := h b1 (by simp)
    have h1 : b1 * 16 / 64 < 64 := by omega
    have h2 : b1 * 16 % 64 < 64 := by omega
    simp only [b64EncodeRec, b64DecodeRec, charToSextet_sextetChar _ h1,
      charToSextet_sextetChar _ h2, charToSextet_pad, if_pos,
      Option.some.injEq, List.cons.injEq, and_true]
    omega
  | [b1, b2], h => by
    have hb1 : b1 < 256 := h b1 (by simp)
    have hb2 : b2 < 256 := h b2 (by simp)
    have h1 : (b1 * 1024 + b2 * 4) / 4096 < 64 := by omega
    have h2 : (b1 * 1024 + b2 * 4) / 64 % 64 < 64 := by omega
    have h3 : (b1 * 1024 + b2 * 4) % 64 < 64 := by omega
    simp only [b64EncodeRec, b64DecodeRec, charToSextet_sextetChar _ h1,
      charToSextet_sextetChar _ h2, charToSextet_sextetChar _ h3, charToSextet_pad,
      if_pos, Option.some.injEq, List.cons.injEq, and_true]
    omega
  | b1 :: b2 :: b3 :: rest, h => by
    have hb1 : b1 < 256 := h b1 (by simp)
    have hb2 : b2 < 256 := h b2 (by simp)
    have hb3 : b3 < 256 := h b3 (by simp)
    have ih := b64_roundtrip rest (fun b hb => h b (by simp [hb]))
    have h1 : (b1 * 65536 + b2 * 256 + b3) / 262144 < 64 := by omega
    have h2 : (b1 * 65536 + b2 * 256 + b3) / 4096 % 64 < 64 := by omega
    have h3 : (b1 * 65536 + b2 * 256 + b3) / 64 % 64 < 64 := by omega
    have h4 : (b1 * 65536 + b2 * 256 + b3) % 64 < 64 := by omega
    simp only [b64EncodeRec, b64DecodeRec, charToSextet_sextetChar _ h1,
      charToSextet_sextetChar _ h2, charToSextet_sextetChar _ h3,
      charToSextet_sextetChar _ h4, ih, Option.map_some',
      Option.some.injEq, List.cons.injEq, and_true]
    have e1 : (b1 * 65536 + b2 * 256 + b3) / 262144 = b1 / 4 := by omega
    have e2 : (b1 * 65536 + b2 * 256 + b3) / 4096 % 64 = b1 % 4 * 16 + b2 / 16 := by omega
    have e3 : (b1 * 65536 + b2 * 256 + b3) / 64 % 64 = b2 % 16 * 4 + b3 / 64 := by omega
    have e4 : (b1 * 65536 + b2 * 256 + b3) % 64 = b3 % 64 := by omega
    rw [e1, e2, e3, e4]
    omega

/-- C9: for every input whose filename resolves to a recognized raster type,
the pipeline passes the image bytes through unmodified, and base64-decoding
the encoded payload recovers exactly the original bytes. -/
theorem raster_passthrough_roundtrip (cvb : List Nat → Option (List PageImage))
    (jb : StitchedImage → List Nat) (bytes : List Nat) (name mime : String)
    (hbytes : ∀ b ∈ bytes, b < 256)
    (hg : guess_type name = some mime) (hm : mime ∈ rasterMimes) :
    process_document_file cvb jb bytes name = .ok (bytes, mime) ∧
    b64DecodeRec (encode_image bytes) = some bytes := by
  constructor
  · unfold process_document_file
    rw [process_trace_eq_of_raster cvb jb bytes name mime hg hm]
  · exact b64_roundtrip bytes hbytes

/-- C9 witness: the concrete raster input [0, 255, 10, 77] under the filename
"drivers_license.jpg" is passed through and decodes back to itself. -/
theorem raster_passthrough_roundtrip_witness :
    process_document_file (fun _ => none) (fun _ => []) [0, 255, 10, 77]
      "drivers_license.jpg" = .ok ([0, 255, 10, 77], "image/jpeg") ∧
    b64DecodeRec (encode_image [0, 255, 10, 77]) = some [0, 255, 10, 77] :=
  raster_passthrough_roundtrip (fun _ => none) (fun _ => []) [0, 255, 10, 77]
    "drivers_license.jpg" "image/jpeg" (by decide) rfl (by decide)


/-! ## C5: case-insensitivity of extension resolution -/

theorem rfind_append (c : Char) (a b : List Char) :
    rfind c (a ++ b) =
      match rfind c b with
      | some j => some (a.length + j)
      | none => rfind c a := by
  induction a with
  | nil =>
    cases hb : rfind c b with
    | none => simpa using hb
    | some j => simpa using hb
  | cons x xs ih =>
    show (match rfind c (xs ++ b) with
      | some j => some (j + 1)
      | none => if x = c then some 0 else none) = _
    rw [ih]
    cases hb : rfind c b with
    | none => rfl
    | some j =>
      simp only [List.length_cons]
      congr 1
      omega

theorem rfind_eq_none_of_not_mem (c : Char) (l : List Char) (h : c ∉ l) :
    rfind c l = none := by
  induction l with
  | nil => rfl
  | cons x xs ih =>
    have hx : x ≠ c := fun hxc => h (hxc ▸ List.mem_cons_self x xs)
    have hxs : c ∉ xs := fun hm => h (List.mem_cons_of_mem x hm)
    show (match rfind c xs with
      | some j => some (j + 1)
      | none => if x = c then some 0 else none) = none
    rw [ih hxs, if_neg hx]

theorem rfind_lt_length (c : Char) (l : List Char) (i : Nat)
    (h : rfind c l = some i) : i < l.length := by
  induction l generalizing i with
  | nil => cases h
  | cons x xs ih =>
    cases hx : rfind c xs with
    | some j =>
      have hh : rfind c (x :: xs) = some (j + 1) := by
        show (match rfind c xs with
          | some j => some (j + 1)
          | none => if x = c then some 0 else none) = _
        rw [hx]
      rw [hh] at h
      cases h
      have := ih j hx
      simp only [List.length_cons]
      omega
    | none =>
      by_cases hxc : x = c
      · have hh : rfind c (x :: xs) = some 0 := by
          show (match rfind c xs with
            | some j => some (j + 1)
            | none => if x = c then some 0 else none) = _
          rw [hx, if_pos hxc]
        rw [hh] at h
        cases h
        simp
      · have hh : rfind c (x :: xs) = none := by
          show (match rfind c xs with
            | some j => some (j + 1)
            | none => if x = c then some 0 else none) = _
          rw [hx, if_neg hxc]
        rw [hh] at h
        cases h

theorem any_eq_of_forall (l : List Nat) (f g : Nat → Bool)
    (h : ∀ x ∈ l, f x = g x) : l.any f = l.any g := by
  induction l with
  | nil => rfl
  | cons a as ih =>
    simp only [List.any_cons]
    rw [h a (List.mem_cons_self a as), ih (fun x hx => h x (List.mem_cons_of_mem a hx))]

theorem sepNextOf_le (s : List Char) : sepNextOf s ≤ s.length := by
  unfold sepNextOf
  cases hst : rfind '/' s with
  | none => exact Nat.zero_le _
  | some i => exact rfind_lt_length '/' s i hst

/-- The condition of `posixpath.splitext` that depends only on the part of
the filename before the final dot: some character after the last separator
and before the dot is not itself a dot. -/
def stemCond (stem : List Char) : Bool :=
  (List.range' (sepNextOf stem) (stem.length - sepNextOf stem)).any
    (fun i => stem.getD i ' ' ≠ '.')

theorem splitextExt_stem_ext (stem t : List Char)
    (hd : '.' ∉ t) (hs : '/' ∉ t) :
    splitextExt (stem ++ '.' :: t) = if stemCond stem then '.' :: t else [] := by
  have hdot1 : rfind '.' ('.' :: t) = some 0 := by
    show (match rfind '.' t with
      | some j => some (j + 1)
      | none => if '.' = '.' then some 0 else none) = some 0
    rw [rfind_eq_none_of_not_mem '.' t hd, if_pos rfl]
  have hdot : rfind '.' (stem ++ '.' :: t) = some stem.length := by
    rw [rfind_append, hdot1]
    simp
  have hsep1 : rfind '/' ('.' :: t) = none := by
    show (match rfind '/' t with
      | some j => some (j + 1)
      | none => if '.' = '/' then some 0 else none) = none
    rw [rfind_eq_none_of_not_mem '/' t hs, if_neg (by decide)]
  have hsep : sepNextOf (stem ++ '.' :: t) = sepNextOf stem := by
    unfold sepNextOf
    rw [rfind_append, hsep1]
  have hany :
      (List.range' (sepNextOf stem) (stem.length - sepNextOf stem)).any
        (fun i => (stem ++ '.' :: t).getD i ' ' ≠ '.') =
      (List.range' (sepNextOf stem) (stem.length - sepNextOf stem)).any
        (fun i => stem.getD i ' ' ≠ '.') := by
    apply any_eq_of_forall
    intro x hx
    have hxr := List.mem_range'_1.mp hx
    have hle := sepNextOf_le stem
    have hxl : x < stem.length := by omega
    simp only [List.getD_append stem ('.' :: t) ' ' x hxl]
  simp only [splitextExt, hdot, hsep, stemCond]
  rw [if_pos (sepNextOf_le stem), hany]
  by_cases hc : (List.range' (sepNextOf stem) (stem.length - sepNextOf stem)).any
      (fun i => stem.getD i ' ' ≠ '.')
  · rw [if_pos hc, if_pos hc, List.drop_left]
  · rw [if_neg hc, if_neg hc]

/-- C5: type resolution is case-insensitive on the extension: any two
filenames sharing a stem whose extensions (dot-free, separator-free suffixes
after a final dot) agree up to letter case resolve to the same media-type
classification. -/
theorem resolution_case_insensitive (stem t1 t2 : List Char)
    (h1d : '.' ∉ t1) (h1s : '/' ∉ t1) (h2d : '.' ∉ t2) (h2s : '/' ∉ t2)
    (hcase : t1.map Char.toLower = t2.map Char.toLower) :
    guess_type (String.mk (stem ++ '.' :: t1)) =
      guess_type (String.mk (stem ++ '.' :: t2)) := by
  have ht1 : (String.mk (stem ++ '.' :: t1)).toList = stem ++ '.' :: t1 := rfl
  have ht2 : (String.mk (stem ++ '.' :: t2)).toList = stem ++ '.' :: t2 := rfl
  have hext : (splitextExt (String.mk (stem ++ '.' :: t1)).toList).map Char.toLower =
      (splitextExt (String.mk (stem ++ '.' :: t2)).toList).map Char.toLower := by
    rw [ht1, ht2, splitextExt_stem_ext stem t1 h1d h1s,
      splitextExt_stem_ext stem t2 h2d h2s]
    by_cases hc : stemCond stem
    · rw [if_pos hc, if_pos hc]
      simp only [List.map_cons]
      rw [hcase]
    · rw [if_neg hc, if_neg hc]
  simp only [guess_type]
  rw [hext]

/-- C5 witness: "file.JPG" and "file.jpg" resolve to the same classification
(both to image/jpeg). -/
theorem resolution_case_insensitive_witness :
    guess_type (String.mk ("file".toList ++ '.' :: "JPG".toList)) =
      guess_type (String.mk ("file".toList ++ '.' :: "jpg".toList)) :=
  resolution_case_insensitive "file".toList "JPG".toList "jpg".toList
    (by decide) (by decide) (by decide) (by decide) (by decide)
